import Mathlib

/-!
Verification of the processing-orchestration core of the rembg GUI
application: the thread-safe processing state flags, the rembg session
manager, the per-image processor and batch runner, and the video frame
extraction/reassembly pipeline.

Each Python class or function is shallowly embedded as a Lean definition.
Lock-guarded blocks of the Python code execute as single atomic steps on
the state, so each such block is modelled as one Lean function on the
state record.  External collaborators (the rembg engine, `json.loads`,
the filesystem, `onnxruntime`) are modelled as explicit oracle parameters:
an oracle returning `none` corresponds to the collaborator raising an
exception at that call site.
-/

/-! ### ProcessingState (src/gui/main_window.py, lines 73-109)

Fields `_processing` and `_should_stop`, all methods take the lock and so
are single transitions. -/

namespace MainWindow

structure ProcessingState where
  processing : Bool
  should_stop : Bool
deriving DecidableEq, Repr

/-- `start_processing`: returns `False` if already processing, otherwise
sets `_processing := True`, `_should_stop := False` and returns `True`.
Result is (return value, new state). -/
def ProcessingState.start_processing (s : ProcessingState) : Bool × ProcessingState :=
  if s.processing then (false, s)
  else (true, { processing := true, should_stop := false })

/-- `stop_processing`: sets `_should_stop := True` (unconditionally). -/
def ProcessingState.stop_processing (s : ProcessingState) : ProcessingState :=
  { s with should_stop := true }

/-- `finish_processing`: sets `_processing := False` and
`_should_stop := False` in the same lock-guarded block. -/
def ProcessingState.finish_processing (_ : ProcessingState) : ProcessingState :=
  { processing := false, should_stop := false }

/-- `is_processing`: reads `_processing`. -/
def ProcessingState.is_processing (s : ProcessingState) : Bool :=
  s.processing

/-- `should_stop`: reads `_should_stop`. -/
def ProcessingState.should_stop' (s : ProcessingState) : Bool :=
  s.should_stop

end MainWindow

/-! ### ProcessingState (src/core/processor.py, lines 31-59)

The processor's own copy of the state class: `set_processing` replaces
`start_processing`/`finish_processing`; setting it to `False` also clears
the stop flag. -/

namespace Processor

structure ProcessingState where
  processing : Bool
  should_stop : Bool
deriving DecidableEq, Repr

/-- `set_processing(processing)`: stores the flag; clearing it also
clears `_should_stop` in the same lock-guarded block. -/
def ProcessingState.set_processing (s : ProcessingState) (p : Bool) : ProcessingState :=
  if p then { s with processing := true }
  else { processing := false, should_stop := false }

/-- `stop_processing`: sets `_should_stop := True` (unconditionally). -/
def ProcessingState.stop_processing (s : ProcessingState) : ProcessingState :=
  { s with should_stop := true }

/-- `should_stop`: reads `_should_stop`. -/
def ProcessingState.should_stop' (s : ProcessingState) : Bool :=
  s.should_stop

/-- `is_processing`: `_processing and not _should_stop`. -/
def ProcessingState.is_processing (s : ProcessingState) : Bool :=
  s.processing && !s.should_stop

end Processor

/-! ### Claims C2 and C9 -/

/-- C2: `start_processing` returns `false` and leaves the state unchanged
whenever called while a job is running; `finish_processing` clears the
running and stop flags together in one transition (so no state in which
stop is true and running is false is ever produced by it); and after
`finish_processing` a subsequent `start_processing` returns `true`. -/
theorem start_finish_processing_contract (s : MainWindow.ProcessingState) :
    (s.processing = true → s.start_processing = (false, s)) ∧
    s.finish_processing = { processing := false, should_stop := false } ∧
    (s.finish_processing.start_processing =
      (true, { processing := true, should_stop := false })) := by
  refine ⟨fun h => ?_, rfl, ?_⟩
  · simp [MainWindow.ProcessingState.start_processing, h]
  · simp [MainWindow.ProcessingState.finish_processing,
      MainWindow.ProcessingState.start_processing]

/-- Witness for `start_finish_processing_contract` at the concrete state
`⟨true, false⟩`. -/
theorem start_finish_processing_contract_witness :
    (MainWindow.ProcessingState.mk true false).start_processing =
      (false, MainWindow.ProcessingState.mk true false) :=
  (start_finish_processing_contract ⟨true, false⟩).1 rfl

/-- C9 counterexample: in the idle state (`processing = false`,
`should_stop = false`), calling `stop_processing` makes `should_stop()`
return `true`, not `false`: the stop flag is set even when no job is
running. -/
theorem stop_processing_when_idle_sets_flag :
    ((MainWindow.ProcessingState.mk false false).stop_processing.should_stop' = true) ∧
    ¬ ((MainWindow.ProcessingState.mk false false).stop_processing.should_stop' = false) := by
  constructor
  · rfl
  · simp [MainWindow.ProcessingState.stop_processing, MainWindow.ProcessingState.should_stop']

/-- C9 (amended): `stop_processing` sets the stop flag unconditionally,
even while no job is running (both in the GUI state and in the
processor's state); what holds instead is that a successful
`start_processing` clears the flag, so a stale stop request made while
idle is never observed by the next job: after `start_processing`
succeeds, `should_stop()` is `false`. -/
theorem stop_processing_stale_flag_cleared (s : MainWindow.ProcessingState)
    (t : Processor.ProcessingState) :
    (s.stop_processing.should_stop' = true) ∧
    (t.stop_processing.should_stop' = true) ∧
    (s.processing = false →
      s.stop_processing.start_processing =
        (true, { processing := true, should_stop := false })) := by
  refine ⟨rfl, rfl, fun h => ?_⟩
  simp [MainWindow.ProcessingState.stop_processing,
    MainWindow.ProcessingState.start_processing, h]

/-- Witness for `stop_processing_stale_flag_cleared` at the idle state. -/
theorem stop_processing_stale_flag_cleared_witness :
    (MainWindow.ProcessingState.mk false false).stop_processing.start_processing =
      (true, { processing := true, should_stop := false }) :=
  (stop_processing_stale_flag_cleared ⟨false, false⟩ ⟨false, false⟩).2.2 rfl

/-! ### SessionManager (src/core/session_manager.py)

The rembg `new_session` call is an oracle
`ns : String → List Provider → Option Nat`: `none` models the call
raising an exception, `some h` models it returning handle `h`.  The
`onnxruntime` availability probe inside `_is_gpu_session` is the oracle
boolean `cudaAvailable` (whether `'CUDAExecutionProvider'` is among
`ort.get_available_providers()`).  `REMBG_AVAILABLE` and
`SETTINGS_AVAILABLE` are taken as true (the imports succeeded). -/

namespace SessionManagerMod

/-- An entry of the ONNX provider preference list: the
`('CUDAExecutionProvider', CUDA_OPTIONS)` tuple or the plain
`'CPUExecutionProvider'` string. -/
inductive Provider where
  | cudaWithOptions : Provider
  | cpu : Provider
deriving DecidableEq, Repr

/-- `_get_providers(use_gpu)`: GPU preference yields
`[('CUDAExecutionProvider', CUDA_OPTIONS), 'CPUExecutionProvider']`,
otherwise `['CPUExecutionProvider']`. -/
def get_providers (use_gpu : Bool) : List Provider :=
  if use_gpu then [Provider.cudaWithOptions, Provider.cpu]
  else [Provider.cpu]

/-- `_is_gpu_session(providers)`: scans the list for a provider whose name
contains `CUDA` or `ROCM`; for the first such provider it reports whether
`onnxruntime` lists it as available (`cudaAvailable`); if none is found it
returns `False`. -/
def is_gpu_session (cudaAvailable : Bool) : List Provider → Bool
  | [] => false
  | Provider.cudaWithOptions :: _ => cudaAvailable
  | Provider.cpu :: rest => is_gpu_session cudaAvailable rest

/-- The `SessionManager` fields guarded by its lock: `_session` (opaque
handle or `None`), `_current_model`, `_use_gpu`. -/
structure SessionManager where
  session : Option Nat
  current_model : Option String
  use_gpu : Bool
deriving DecidableEq, Repr

/-- The freshly constructed manager: no session, no model, CPU mode. -/
def SessionManager.init : SessionManager :=
  { session := none, current_model := none, use_gpu := false }

/-- `_create_session_internal(model_name, use_gpu)`: builds the provider
list, calls `new_session`; on an exception, if `use_gpu` was requested it
recurses once with `use_gpu=False`, otherwise it returns `False` leaving
the fields untouched; on success it stores the handle, the model name and
`use_gpu and _is_gpu_session(providers)`.  Result is
(return value, new state). -/
def create_session_internal (ns : String → List Provider → Option Nat)
    (cudaAvailable : Bool) (mgr : SessionManager) (model_name : String) :
    (use_gpu : Bool) → Bool × SessionManager
  | true =>
    match ns model_name (get_providers true) with
    | none => create_session_internal ns cudaAvailable mgr model_name false
    | some h =>
      (true, { session := some h, current_model := some model_name,
               use_gpu := true && is_gpu_session cudaAvailable (get_providers true) })
  | false =>
    match ns model_name (get_providers false) with
    | none => (false, mgr)
    | some h =>
      (true, { session := some h, current_model := some model_name,
               use_gpu := false && is_gpu_session cudaAvailable (get_providers false) })
termination_by b => cond b 1 0
decreasing_by decide

/-- `create_session(model_name, use_gpu)`: takes the lock and runs
`_create_session_internal`. -/
def create_session (ns : String → List Provider → Option Nat)
    (cudaAvailable : Bool) (mgr : SessionManager) (model_name : String)
    (use_gpu : Bool) : Bool × SessionManager :=
  create_session_internal ns cudaAvailable mgr model_name use_gpu

/-- `get_session()`: returns `_session`. -/
def get_session (mgr : SessionManager) : Option Nat :=
  mgr.session

/-- `is_session_ready()`: `_session is not None`. -/
def is_session_ready (mgr : SessionManager) : Bool :=
  mgr.session.isSome

/-- The dictionary returned by `get_session_info()` (the
`rembg_available` entry is constantly true here). -/
structure SessionInfo where
  model : Option String
  use_gpu : Bool
  ready : Bool
deriving DecidableEq, Repr

/-- `get_session_info()`: reports the current model, GPU flag and
readiness. -/
def get_session_info (mgr : SessionManager) : SessionInfo :=
  { model := mgr.current_model, use_gpu := mgr.use_gpu,
    ready := mgr.session.isSome }

/-- `recreate_session_if_needed(model_name, use_gpu)`: if no session
exists, or the stored model or GPU flag differs from the request, nulls
the existing handle and runs `_create_session_internal`; otherwise
returns `True` with the state untouched. -/
def recreate_session_if_needed (ns : String → List Provider → Option Nat)
    (cudaAvailable : Bool) (mgr : SessionManager) (model_name : String)
    (use_gpu : Bool) : Bool × SessionManager :=
  if mgr.session = none ∨ mgr.current_model ≠ some model_name ∨
      mgr.use_gpu ≠ use_gpu then
    let mgr' := if mgr.session.isSome then { mgr with session := none } else mgr
    create_session_internal ns cudaAvailable mgr' model_name use_gpu
  else
    (true, mgr)

end SessionManagerMod

/-! ### Claims C3, C7 and C10 -/

/-- Helper: when the `new_session` oracle fails for the requested provider
list and for the CPU-only list, `_create_session_internal` reports failure
with the state untouched. -/
lemma create_session_internal_fail
    (ns : String → List SessionManagerMod.Provider → Option Nat)
    (ca : Bool) (mgr : SessionManagerMod.SessionManager) (m : String)
    (gpu : Bool)
    (h1 : ns m (SessionManagerMod.get_providers gpu) = none)
    (h2 : ns m (SessionManagerMod.get_providers false) = none) :
    SessionManagerMod.create_session_internal ns ca mgr m gpu = (false, mgr) := by
  cases gpu <;>
    simp [SessionManagerMod.create_session_internal, h1, h2]

/-- C3: when GPU session creation raises, `_create_session_internal`
retries exactly once, with the CPU-only provider list (the whole call is
equal to the plain CPU attempt, which itself never recurses); if the CPU
retry succeeds, the session is ready with `use_gpu = false` in
`get_session_info`; if the CPU retry also fails, creation reports
failure. -/
theorem create_session_gpu_fallback
    (ns : String → List SessionManagerMod.Provider → Option Nat)
    (ca : Bool) (mgr : SessionManagerMod.SessionManager) (m : String)
    (hgpu : ns m (SessionManagerMod.get_providers true) = none) :
    (SessionManagerMod.create_session_internal ns ca mgr m true =
      SessionManagerMod.create_session_internal ns ca mgr m false) ∧
    (∀ h, ns m (SessionManagerMod.get_providers false) = some h →
      SessionManagerMod.create_session_internal ns ca mgr m true =
        (true, { session := some h, current_model := some m, use_gpu := false }) ∧
      SessionManagerMod.get_session_info
          (SessionManagerMod.create_session_internal ns ca mgr m true).2 =
        { model := some m, use_gpu := false, ready := true }) ∧
    (ns m (SessionManagerMod.get_providers false) = none →
      SessionManagerMod.create_session_internal ns ca mgr m true = (false, mgr)) := by
  refine ⟨?_, fun h hcpu => ?_, fun hcpu => ?_⟩
  · simp [SessionManagerMod.create_session_internal, hgpu]
  · constructor <;>
      simp [SessionManagerMod.create_session_internal, hgpu, hcpu,
        SessionManagerMod.get_session_info]
  · simp [SessionManagerMod.create_session_internal, hgpu, hcpu]

/-- Witness for `create_session_gpu_fallback`: an oracle that throws on
the GPU provider list and returns handle 7 on the CPU-only list. -/
theorem create_session_gpu_fallback_witness :
    SessionManagerMod.create_session_internal
      (fun _ ps => if ps = [SessionManagerMod.Provider.cpu] then some 7 else none)
      true SessionManagerMod.SessionManager.init "u2net" true =
      (true, { session := some 7, current_model := some "u2net", use_gpu := false }) :=
  ((create_session_gpu_fallback
      (fun _ ps => if ps = [SessionManagerMod.Provider.cpu] then some 7 else none)
      true SessionManagerMod.SessionManager.init "u2net" (by decide)).2.1 7 (by decide)).1

/-- C7: `recreate_session_if_needed` is idempotent: whenever a live
session exists and the stored `(model, use_gpu)` pair equals the request,
it returns `true` with the state untouched (for every creation oracle, so
no creation or destruction is performed); creation runs (on the state
with the handle nulled) only when no session exists or the stored model
or GPU flag differs from the request. -/
theorem recreate_session_idempotent
    (ns : String → List SessionManagerMod.Provider → Option Nat)
    (ca : Bool) (mgr : SessionManagerMod.SessionManager) (m : String)
    (gpu : Bool) :
    (mgr.session.isSome = true → mgr.current_model = some m → mgr.use_gpu = gpu →
      SessionManagerMod.recreate_session_if_needed ns ca mgr m gpu = (true, mgr)) ∧
    ((mgr.session = none ∨ mgr.current_model ≠ some m ∨ mgr.use_gpu ≠ gpu) →
      SessionManagerMod.recreate_session_if_needed ns ca mgr m gpu =
        SessionManagerMod.create_session_internal ns ca
          { mgr with session := none } m gpu) := by
  constructor
  · intro hs hm hg
    have hne : ¬ (mgr.session = none) := by
      cases h : mgr.session with
      | none => rw [h] at hs; simp at hs
      | some v => simp
    simp [SessionManagerMod.recreate_session_if_needed, hne, hm, hg]
  · intro hcond
    cases h : mgr.session with
    | none =>
      have : ({ mgr with session := none } : SessionManagerMod.SessionManager) = mgr := by
        cases mgr; simp_all
      rw [this]
      simp [SessionManagerMod.recreate_session_if_needed, h]
    | some v =>
      have hcond' : mgr.session = none ∨ mgr.current_model ≠ some m ∨
          mgr.use_gpu ≠ gpu := hcond
      rw [SessionManagerMod.recreate_session_if_needed, if_pos hcond']
      simp [h]

/-- Witness for `recreate_session_idempotent` at a matching state. -/
theorem recreate_session_idempotent_witness :
    SessionManagerMod.recreate_session_if_needed (fun _ _ => none) false
      { session := some 3, current_model := some "u2net", use_gpu := false }
      "u2net" false =
      (true, { session := some 3, current_model := some "u2net", use_gpu := false }) :=
  (recreate_session_idempotent (fun _ _ => none) false
      ⟨some 3, some "u2net", false⟩ "u2net" false).1 rfl rfl rfl

/-- C10: when `recreate_session_if_needed` decides recreation is needed
and creation of the new session fails (the oracle throws for the
requested provider list and for the CPU-only fallback list), it returns
`false` and the manager is left with no session: `is_session_ready` is
`false` and `get_session` is `none`, and the old handle is not retained.
By contrast, the direct `create_session` path on the same failing oracle
leaves the previously stored state — old handle included — untouched. -/
theorem recreate_session_failure_clears_handle
    (ns : String → List SessionManagerMod.Provider → Option Nat)
    (ca : Bool) (mgr : SessionManagerMod.SessionManager) (m : String)
    (gpu : Bool)
    (hcond : mgr.session = none ∨ mgr.current_model ≠ some m ∨ mgr.use_gpu ≠ gpu)
    (h1 : ns m (SessionManagerMod.get_providers gpu) = none)
    (h2 : ns m (SessionManagerMod.get_providers false) = none) :
    (SessionManagerMod.recreate_session_if_needed ns ca mgr m gpu =
      (false, { mgr with session := none })) ∧
    SessionManagerMod.is_session_ready
      (SessionManagerMod.recreate_session_if_needed ns ca mgr m gpu).2 = false ∧
    SessionManagerMod.get_session
      (SessionManagerMod.recreate_session_if_needed ns ca mgr m gpu).2 = none ∧
    SessionManagerMod.create_session ns ca mgr m gpu = (false, mgr) := by
  have hmain : SessionManagerMod.recreate_session_if_needed ns ca mgr m gpu =
      (false, { mgr with session := none }) := by
    rw [(recreate_session_idempotent ns ca mgr m gpu).2 hcond]
    exact create_session_internal_fail ns ca _ m gpu h1 h2
  refine ⟨hmain, ?_, ?_, ?_⟩
  · rw [hmain]; rfl
  · rw [hmain]; rfl
  · exact create_session_internal_fail ns ca mgr m gpu h1 h2

/-- Witness for `recreate_session_failure_clears_handle`: a live session
for model `u2net` is asked to become `isnet` and every creation attempt
throws. -/
theorem recreate_session_failure_clears_handle_witness :
    SessionManagerMod.recreate_session_if_needed (fun _ _ => none) false
      { session := some 5, current_model := some "u2net", use_gpu := false }
      "isnet-general-use" false =
      (false, { session := none, current_model := some "u2net", use_gpu := false }) :=
  (recreate_session_failure_clears_handle (fun _ _ => none) false
      ⟨some 5, some "u2net", false⟩ "isnet-general-use" false
      (Or.inr (Or.inl (by decide))) rfl rfl).1

/-! ### ImageProcessor (src/core/processor.py)

`process_single_image` is a straight-line function with three reads of the
shared stop flag (before the input read, after it, and before the output
write); those three observed values are the parameters `s1 s2 s3`.  The
filesystem and the engine are oracles bundled in `ItemEnv`: `readb` is
the result of reading the input file (`none` = IOError), `memOk` the
result of `check_available_memory_for_file`, `engine` the
`rembg.remove` call on the input bytes and the parsed extra-argument
value (`none` = exception), `writeOk` whether the output write
succeeds.  Byte strings are modelled as `Nat` codes.
`PROCESSING_AVAILABLE` and `UTILS_AVAILABLE` are taken as true. -/

/-- A Python JSON value as returned by `json.loads`. -/
inductive Json where
  | null : Json
  | bool : Bool → Json
  | num : Int → Json
  | str : String → Json
  | arr : List Json → Json
  | obj : List (String × Json) → Json
deriving BEq, Repr

/-- The characters removed by Python's `str.strip()` (ASCII range). -/
def isPySpace (c : Char) : Bool :=
  c = ' ' || c = '\t' || c = '\n' || c = '\r' || c = '\x0b' || c = '\x0c'

/-- `not extra_params.strip()`: the string is empty after stripping,
i.e. every character is whitespace. -/
def strippedEmpty (s : String) : Bool :=
  s.data.all isPySpace

/-- `_parse_extra_params(extra_params)`: empty/whitespace-only input gives
`{}`; otherwise `json.loads` (the oracle `loads`, `none` = JSONDecodeError)
is consulted, a decode error again giving `{}`, and a successful parse
giving the parsed value. -/
def parse_extra_params (loads : String → Option Json) (extra_params : String) : Json :=
  if strippedEmpty extra_params then Json.obj []
  else
    match loads extra_params with
    | none => Json.obj []
    | some v => v

/-- The external collaborators of one `process_single_image` call. -/
structure ItemEnv where
  memOk : Bool
  readb : Option Nat
  engine : Nat → Json → Option Nat
  writeOk : Bool

/-- `process_single_image(input_path, output_path, ...)`: checks the stop
flag, the memory precondition, reads the input (`none` = IOError →
`False`), checks the stop flag again, parses the extra parameters, checks
session readiness, invokes the engine (exception → `False`), checks the
stop flag once more, and writes the output.  The result is the returned
boolean paired with the bytes written to the output file (`none` = no
output file produced). -/
def process_single_image (sessionReady : Bool) (s1 s2 s3 : Bool)
    (env : ItemEnv) (extra_params : String)
    (loads : String → Option Json) : Bool × Option Nat :=
  if s1 then (false, none)
  else if !env.memOk then (false, none)
  else
    match env.readb with
    | none => (false, none)
    | some input_data =>
      if s2 then (false, none)
      else
        let extra_args := parse_extra_params loads extra_params
        if !sessionReady then (false, none)
        else
          match env.engine input_data extra_args with
          | none => (false, none)
          | some output_data =>
            if s3 then (false, none)
            else if env.writeOk then (true, some output_data)
            else (false, none)

/-- One discovered input file of a `process_directory` run, together with
the behaviour of its processing: `output` is the computed destination
path, `pathOk` whether the relative-path computation succeeds (a failure
runs `continue`), `s1 s2 s3` the stop-flag values observed inside
`process_single_image`, and `env` the per-item collaborators. -/
structure WorkItem where
  name : String
  output : String
  pathOk : Bool
  s1 : Bool
  s2 : Bool
  s3 : Bool
  env : ItemEnv

/-- One invocation of the progress callback: `after = false` for the
before-item event (emitted with `current = i`), `after = true` for the
after-item event (emitted with `current = i + 1`). -/
structure ProgressEvent where
  after : Bool
  current : Nat
  total : Nat
  label : String
deriving DecidableEq, Repr

/-- The `for i, input_file in enumerate(image_files)` loop of
`process_directory`, started at absolute index `i`:
`stopTop j` is the shared stop flag observed at the loop-top check of
iteration `j`.  Returns (number of successes, `processed_frames` in
completion order, the emitted progress events in order). -/
def process_directory_loop (sessionReady : Bool)
    (loads : String → Option Json) (extra_params : String)
    (stopTop : Nat → Bool) (total : Nat) :
    List WorkItem → Nat → Nat × List String × List ProgressEvent
  | [], _ => (0, [], [])
  | item :: rest, i =>
    if stopTop i then (0, [], [])
    else if !item.pathOk then
      process_directory_loop sessionReady loads extra_params stopTop total rest (i + 1)
    else
      let ok := (process_single_image sessionReady item.s1 item.s2 item.s3
        item.env extra_params loads).1
      let r := process_directory_loop sessionReady loads extra_params stopTop total
        rest (i + 1)
      if ok then
        (r.1 + 1, item.output :: r.2.1,
          ⟨false, i, total, "Processing: " ++ item.name⟩ ::
          ⟨true, i + 1, total, "Completed: " ++ item.name⟩ :: r.2.2)
      else
        (r.1, r.2.1,
          ⟨false, i, total, "Processing: " ++ item.name⟩ ::
          ⟨true, i + 1, total, "Failed: " ++ item.name⟩ :: r.2.2)

/-- The aggregate result dictionary of `process_directory`, extended with
the trace of progress events. -/
structure DirResult where
  total : Nat
  successful : Nat
  processed_frames : List String
  events : List ProgressEvent

/-- `process_directory(input_dir, output_dir, ...)` over the ordered list
of discovered image files: when no files are found, or the output
directory cannot be created (`outDirOk = false`), the run ends with no
successes and no events; otherwise the item loop runs from index 0. -/
def process_directory (sessionReady : Bool)
    (loads : String → Option Json) (extra_params : String)
    (outDirOk : Bool) (stopTop : Nat → Bool) (items : List WorkItem) : DirResult :=
  if items.isEmpty then
    { total := 0, successful := 0, processed_frames := [], events := [] }
  else if !outDirOk then
    { total := items.length, successful := 0, processed_frames := [], events := [] }
  else
    let r := process_directory_loop sessionReady loads extra_params stopTop
      items.length items 0
    { total := items.length, successful := r.1, processed_frames := r.2.1,
      events := r.2.2 }

/-- Helper: a stop observed at any of the three in-flight checkpoints
makes `process_single_image` return `false` with no output written. -/
lemma process_single_image_stopped (sessionReady s1 s2 s3 : Bool)
    (env : ItemEnv) (extra_params : String) (loads : String → Option Json)
    (h : s1 || s2 || s3 = true) :
    process_single_image sessionReady s1 s2 s3 env extra_params loads =
      (false, none) := by
  obtain ⟨memOk, readb, engine, writeOk⟩ := env
  rcases readb with _ | d <;>
    cases s1 <;> cases s2 <;> cases s3 <;> cases memOk <;> cases sessionReady <;>
      simp_all [process_single_image] <;>
      cases engine d (parse_extra_params loads extra_params) <;> simp

/-- Helper: if the loop-top stop flag is false for the `k` iterations
starting at `i`, true at iteration `i + k`, and the first `k` items all
have a valid output path and process successfully, the loop performs
exactly those `k` items: `k` successes whose outputs are the destination
paths of the first `k` items, in order. -/
lemma process_directory_loop_stop (sr : Bool) (loads : String → Option Json)
    (extra : String) (stopTop : Nat → Bool) (total : Nat) :
    ∀ (items : List WorkItem) (i k : Nat), k ≤ items.length →
      (∀ j, j < k → stopTop (i + j) = false) →
      stopTop (i + k) = true →
      (∀ item ∈ items.take k, item.pathOk = true ∧
        (process_single_image sr item.s1 item.s2 item.s3 item.env extra loads).1
          = true) →
      (process_directory_loop sr loads extra stopTop total items i).1 = k ∧
      (process_directory_loop sr loads extra stopTop total items i).2.1 =
        (items.take k).map (fun it => it.output) := by
  intro items
  induction items with
  | nil =>
    intro i k hk _ _ _
    have hk0 : k = 0 := Nat.le_zero.mp hk
    subst hk0
    simp [process_directory_loop]
  | cons item rest ih =>
    intro i k hk hrun hstop hsucc
    cases k with
    | zero =>
      have h0 : stopTop i = true := by simpa using hstop
      simp [process_directory_loop, h0]
    | succ k' =>
      have h0 : stopTop i = false := by simpa using hrun 0 (Nat.succ_pos k')
      have hitem := hsucc item (by simp [List.take_succ_cons])
      have ihh := ih (i + 1) k' (by simpa using hk)
        (fun j hj => by
          have := hrun (j + 1) (by omega)
          simpa [Nat.add_assoc, Nat.add_comm 1 j] using this)
        (by
          have : i + (k' + 1) = i + 1 + k' := by omega
          rw [← this]; exact hstop)
        (fun it hit => hsucc it (by simp [List.take_succ_cons, hit]))
      simp only [process_directory_loop, h0, hitem.1, hitem.2, Bool.not_true,
        Bool.false_eq_true, if_false, if_true]
      simp only [List.take_succ_cons, List.map_cons]
      exact ⟨by rw [ihh.1], by rw [ihh.2]⟩

/-! ### Claim C1 -/

/-- C1: over the ordered list of discovered work items, if the stop flag
turns true at the loop-top check of iteration `k` (false at every earlier
check) and the first `k` items complete successfully, `process_directory`
halts there with exactly `k` successes, the output files being precisely
the destinations of those `k` completed items in order; and inside
`process_single_image`, a stop observed at the before-read, after-read or
before-write checkpoint makes it return `false` with no output file
written. -/
theorem batch_cancellation_boundary (sr : Bool) (loads : String → Option Json)
    (extra : String) (stopTop : Nat → Bool) (items : List WorkItem) (k : Nat)
    (hk : k ≤ items.length)
    (hrun : ∀ j, j < k → stopTop j = false)
    (hstop : stopTop k = true)
    (hsucc : ∀ item ∈ items.take k, item.pathOk = true ∧
      (process_single_image sr item.s1 item.s2 item.s3 item.env extra loads).1
        = true) :
    ((process_directory sr loads extra true stopTop items).successful = k ∧
     (process_directory sr loads extra true stopTop items).processed_frames =
       (items.take k).map (fun it => it.output)) ∧
    (∀ (s1 s2 s3 : Bool) (env : ItemEnv) (ep : String), s1 || s2 || s3 = true →
      process_single_image sr s1 s2 s3 env ep loads = (false, none)) := by
  constructor
  · have hloop := process_directory_loop_stop sr loads extra stopTop
      items.length items 0 k hk (by simpa using hrun) (by simpa using hstop) hsucc
    cases items with
    | nil =>
      have hk0 : k = 0 := Nat.le_zero.mp hk
      subst hk0
      simp [process_directory]
    | cons item rest =>
      simp only [process_directory, List.isEmpty_cons, Bool.not_true,
        Bool.false_eq_true, if_false, Bool.not_false, if_true]
      exact ⟨hloop.1, hloop.2⟩
  · intro s1 s2 s3 env ep h
    exact process_single_image_stopped sr s1 s2 s3 env ep loads h

/-- A per-item environment in which everything succeeds: memory check
passes, the input reads as byte-code `b`, the engine maps byte-code `d`
to `d + 100`, and the output write succeeds. -/
def sampleEnvOk (b : Nat) : ItemEnv :=
  { memOk := true, readb := some b,
    engine := fun d _ => some (d + 100), writeOk := true }

/-- A concrete succeeding work item. -/
def sampleItem (nm out : String) (b : Nat) : WorkItem :=
  { name := nm, output := out, pathOk := true,
    s1 := false, s2 := false, s3 := false, env := sampleEnvOk b }

/-- Witness for `batch_cancellation_boundary`: two discovered items, a
stop requested after the first completes (`stopTop` turns true at index
1); exactly the first item's output is produced. -/
theorem batch_cancellation_boundary_witness :
    (process_directory true (fun _ => none) "" true (fun i => decide (0 < i))
      [sampleItem "a.png" "out/a_no_bg.png" 1,
       sampleItem "b.png" "out/b_no_bg.png" 2]).successful = 1 ∧
    (process_directory true (fun _ => none) "" true (fun i => decide (0 < i))
      [sampleItem "a.png" "out/a_no_bg.png" 1,
       sampleItem "b.png" "out/b_no_bg.png" 2]).processed_frames =
      ["out/a_no_bg.png"] :=
  (batch_cancellation_boundary true (fun _ => none) "" (fun i => decide (0 < i))
    [sampleItem "a.png" "out/a_no_bg.png" 1,
     sampleItem "b.png" "out/b_no_bg.png" 2] 1
    (by decide) (by decide) (by decide) (by decide)).1

/-! ### Claim C5 -/

/-- Helper: every progress event emitted by the loop started at absolute
index `i` carries a current-index between `i` and `i` plus the number of
remaining items. -/
lemma process_directory_loop_events_bounds (sr : Bool)
    (loads : String → Option Json) (extra : String) (stopTop : Nat → Bool)
    (total : Nat) :
    ∀ (items : List WorkItem) (i : Nat) (e : ProgressEvent),
      e ∈ (process_directory_loop sr loads extra stopTop total items i).2.2 →
      i ≤ e.current ∧ e.current ≤ i + items.length := by
  intro items
  induction items with
  | nil => intro i e he; simp [process_directory_loop] at he
  | cons item rest ih =>
    intro i e he
    by_cases h0 : stopTop i = true
    · simp [process_directory_loop, h0] at he
    · have h0' : stopTop i = false := by simpa using h0
      by_cases hp : item.pathOk = true
      · cases hok : (process_single_image sr item.s1 item.s2 item.s3 item.env
          extra loads).1
        all_goals
          simp only [process_directory_loop, h0', hp, hok, Bool.not_true,
            Bool.not_false, Bool.false_eq_true, if_false, if_true,
            List.mem_cons] at he
          rcases he with rfl | rfl | he
          · exact ⟨Nat.le_refl i, by simp [List.length_cons]⟩
          · refine ⟨Nat.le_succ i, ?_⟩
            simp only [List.length_cons]
            omega
          · obtain ⟨ha, hb⟩ := ih (i + 1) e he
            refine ⟨by omega, ?_⟩
            simp only [List.length_cons]
            omega
      · have hp' : item.pathOk = false := by simpa using hp
        simp only [process_directory_loop, h0', hp', Bool.not_false,
          Bool.false_eq_true, if_false, if_true] at he
        obtain ⟨ha, hb⟩ := ih (i + 1) e he
        refine ⟨by omega, ?_⟩
        simp only [List.length_cons]
        omega

/-- Helper: the current-indices of the events emitted by the loop are
non-decreasing. -/
lemma process_directory_loop_events_chain (sr : Bool)
    (loads : String → Option Json) (extra : String) (stopTop : Nat → Bool)
    (total : Nat) :
    ∀ (items : List WorkItem) (i : Nat),
      List.Chain' (fun a b => a.current ≤ b.current)
        (process_directory_loop sr loads extra stopTop total items i).2.2 := by
  intro items
  induction items with
  | nil => intro i; simp [process_directory_loop]
  | cons item rest ih =>
    intro i
    by_cases h0 : stopTop i = true
    · simp [process_directory_loop, h0]
    · have h0' : stopTop i = false := by simpa using h0
      by_cases hp : item.pathOk = true
      · cases hok : (process_single_image sr item.s1 item.s2 item.s3 item.env
          extra loads).1
        all_goals
          simp only [process_directory_loop, h0', hp, hok, Bool.not_true,
            Bool.not_false, Bool.false_eq_true, if_false, if_true]
          rw [List.chain'_cons]
          refine ⟨Nat.le_succ i, ?_⟩
          rw [List.chain'_cons']
          refine ⟨?_, ih (i + 1)⟩
          intro y hy
          have hmem : y ∈ (process_directory_loop sr loads extra stopTop total
              rest (i + 1)).2.2 := List.mem_of_mem_head? hy
          exact (process_directory_loop_events_bounds sr loads extra stopTop
            total rest (i + 1) y hmem).1
      · have hp' : item.pathOk = false := by simpa using hp
        simp only [process_directory_loop, h0', hp', Bool.not_false,
          Bool.false_eq_true, if_false, if_true]
        exact ih (i + 1)

/-- C5 counterexample: a run over two items, both succeeding, with no
stop request.  The emitted current-index sequence is `0, 1, 1, 2` (the
after-event of item 0 and the before-event of item 1 both carry index 1),
which is not strictly increasing. -/
theorem progress_indices_not_strictly_increasing :
    ¬ List.Chain' (fun a b => a < b)
      ((process_directory true (fun _ => none) "" true (fun _ => false)
        [sampleItem "a.png" "out/a_no_bg.png" 1,
         sampleItem "b.png" "out/b_no_bg.png" 2]).events.map
        (fun e => e.current)) := by
  intro h
  rw [show (process_directory true (fun _ => none) "" true (fun _ => false)
      [sampleItem "a.png" "out/a_no_bg.png" 1,
       sampleItem "b.png" "out/b_no_bg.png" 2]).events.map
        (fun e => e.current) = [0, 1, 1, 2] from rfl] at h
  simp [List.chain'_cons] at h

/-- C5 (amended): over every batch run, the sequence of current-index
values passed to the progress callback (before-item and after-item events
together) is non-decreasing — adjacent events may share an index exactly
where an item's after-event meets the next item's before-event — and
every emitted index is bounded by `total`, the number of discovered
items. -/
theorem progress_indices_monotone (sr : Bool) (loads : String → Option Json)
    (extra : String) (outDirOk : Bool) (stopTop : Nat → Bool)
    (items : List WorkItem) :
    List.Chain' (fun a b => a.current ≤ b.current)
      (process_directory sr loads extra outDirOk stopTop items).events ∧
    (∀ e ∈ (process_directory sr loads extra outDirOk stopTop items).events,
      e.current ≤ (process_directory sr loads extra outDirOk stopTop items).total) := by
  by_cases he : items.isEmpty = true
  · simp [process_directory, he]
  · have he' : items.isEmpty = false := by simpa using he
    by_cases ho : outDirOk = true
    · simp only [process_directory, he', ho, Bool.not_true, Bool.not_false,
        Bool.false_eq_true, if_false, if_true]
      refine ⟨process_directory_loop_events_chain sr loads extra stopTop
        items.length items 0, fun e hme => ?_⟩
      have := process_directory_loop_events_bounds sr loads extra stopTop
        items.length items 0 e hme
      simpa using this.2
    · have ho' : outDirOk = false := by simpa using ho
      simp [process_directory, he', ho']

/-- Witness for `progress_indices_monotone`: the bound applied to the
first event of a concrete one-item run. -/
theorem progress_indices_monotone_witness :
    (⟨false, 0, 1, "Processing: a.png"⟩ : ProgressEvent).current ≤
      (process_directory true (fun _ => none) "" true (fun _ => false)
        [sampleItem "a.png" "out/a_no_bg.png" 1]).total :=
  (progress_indices_monotone true (fun _ => none) "" true (fun _ => false)
    [sampleItem "a.png" "out/a_no_bg.png" 1]).2
    ⟨false, 0, 1, "Processing: a.png"⟩ (by decide)

/-! ### Claim C6 -/

/-- C6: `_parse_extra_params` maps every empty or whitespace-only string,
and every string `json.loads` rejects, to the empty parameter map `{}`;
`process_single_image` therefore behaves on malformed extra-parameter
JSON exactly as on no extra parameters; and a string parsing to a JSON
object is passed through to the engine as that key/value map. -/
theorem malformed_extra_params_ignored (loads : String → Option Json)
    (s : String) :
    (strippedEmpty s = true → parse_extra_params loads s = Json.obj []) ∧
    (loads s = none → parse_extra_params loads s = Json.obj []) ∧
    (∀ v, strippedEmpty s = false → loads s = some v →
      parse_extra_params loads s = v) ∧
    (loads s = none →
      ∀ (sr s1 s2 s3 : Bool) (env : ItemEnv),
        process_single_image sr s1 s2 s3 env s loads =
          process_single_image sr s1 s2 s3 env "" loads) ∧
    (∀ (fields : List (String × Json)) (d out : Nat) (env : ItemEnv),
      strippedEmpty s = false → loads s = some (Json.obj fields) →
      env.memOk = true → env.readb = some d →
      env.engine d (Json.obj fields) = some out → env.writeOk = true →
      process_single_image true false false false env s loads = (true, some out)) := by
  have hstr : strippedEmpty "" = true := rfl
  have hempty : parse_extra_params loads "" = Json.obj [] := by
    simp [parse_extra_params, hstr]
  refine ⟨fun h => ?_, fun h => ?_, fun v hs h => ?_, fun h sr s1 s2 s3 env => ?_,
    fun fields d out env hs hl hm hr he hw => ?_⟩
  · simp [parse_extra_params, h]
  · by_cases hs : strippedEmpty s = true
    · simp [parse_extra_params, hs]
    · have hs' : strippedEmpty s = false := by simpa using hs
      simp [parse_extra_params, hs', h]
  · simp [parse_extra_params, hs, h]
  · have hparse : parse_extra_params loads s = parse_extra_params loads "" := by
      rw [hempty]
      by_cases hs : strippedEmpty s = true
      · simp [parse_extra_params, hs]
      · have hs' : strippedEmpty s = false := by simpa using hs
        simp [parse_extra_params, hs', h]
    simp [process_single_image, hparse]
  · simp [process_single_image, parse_extra_params, hs, hl, hm, hr, he, hw]

/-- Witness for `malformed_extra_params_ignored`: a `json.loads` oracle
that rejects the malformed string `{bad json`; parsing it yields the
empty map. -/
theorem malformed_extra_params_ignored_witness :
    parse_extra_params (fun _ => none) "\x7bbad json" = Json.obj [] :=
  (malformed_extra_params_ignored (fun _ => none) "\x7bbad json").2.1 rfl

/-! ### VideoHandler.extract_video_frames (src/core/video_handler.py,
lines 63-130)

Frame rates are modelled as rationals; `int()` is truncation toward
zero.  The reading loop is modelled over `n`, the number of frames
`cap.read()` yields before failing; each saved frame is recorded as the
pair (saved index, source frame index). -/

/-- Python `int()` on a number: truncation toward zero. -/
def pyInt (q : ℚ) : Int :=
  if 0 ≤ q then ⌊q⌋ else ⌈q⌉

/-- The `frame_skip` computation of `extract_video_frames`: `1` when no
target rate is requested, otherwise `max(1, int(video_fps / fps))`. -/
def frame_skip (video_fps : ℚ) : Option ℚ → Nat
  | none => 1
  | some fps => max 1 (pyInt (video_fps / fps)).toNat

/-- The `while True: ret, frame = cap.read()` loop of
`extract_video_frames` with stride `s`: `m` frames remain readable, `fc`
is `frame_count`, `sc` is `saved_count`; a frame is saved when
`frame_count % frame_skip == 0`.  Returns the (saved index, source frame
index) pairs of the saved frames in order. -/
def extract_loop (s : Nat) : Nat → Nat → Nat → List (Nat × Nat)
  | 0, _, _ => []
  | m + 1, fc, sc =>
    if fc % s = 0 then
      (sc, fc) :: extract_loop s m (fc + 1) (sc + 1)
    else
      extract_loop s m (fc + 1) sc

/-- `extract_video_frames` on a video whose capture yields `n` frames,
with stride `s`: the loop starts with both counters at 0. -/
def extract_video_frames (n s : Nat) : List (Nat × Nat) :=
  extract_loop s n 0 0

/-- Helper: the source indices saved by the loop are exactly the indices
in `[fc, fc + m)` divisible by the stride. -/
lemma extract_loop_snd (s : Nat) :
    ∀ (m fc sc : Nat), (extract_loop s m fc sc).map Prod.snd =
      (List.range' fc m).filter (fun i => i % s == 0) := by
  intro m
  induction m with
  | zero => intro fc sc; simp [extract_loop]
  | succ m ih =>
    intro fc sc
    rw [List.range'_succ]
    by_cases h : fc % s = 0
    · simp [extract_loop, h, ih]
    · simp [extract_loop, h, ih]

/-- Helper: from a state in which the next frame to save is the `sc`-th
multiple of the stride (`fc ≤ sc * s < fc + s`), the loop saves the
consecutively numbered pairs `(sc, sc*s), (sc+1, (sc+1)*s), …`. -/
lemma extract_loop_closed (s : Nat) (hs : 0 < s) :
    ∀ (m fc sc : Nat), fc ≤ sc * s → sc * s < fc + s →
      extract_loop s m fc sc =
        (List.range' sc (extract_loop s m fc sc).length).map
          (fun j => (j, j * s)) := by
  intro m
  induction m with
  | zero => intro fc sc _ _; simp [extract_loop]
  | succ m ih =>
    intro fc sc hlo hhi
    by_cases h : fc % s = 0
    · have hfc : fc = sc * s := by
        obtain ⟨t, ht⟩ := Nat.dvd_of_mod_eq_zero h
        subst ht
        have h1 : t ≤ sc := by
          have := hlo
          rw [Nat.mul_comm sc s] at this
          exact Nat.le_of_mul_le_mul_left this hs
        have h2 : sc ≤ t := by
          have h3 : s * sc < s * (t + 1) := by
            rw [Nat.mul_comm s sc]
            calc sc * s < s * t + s := hhi
              _ = s * (t + 1) := by ring
          exact Nat.lt_succ_iff.mp (Nat.lt_of_mul_lt_mul_left h3)
        rw [Nat.le_antisymm h2 h1, Nat.mul_comm]
      have hexp : (sc + 1) * s = sc * s + s := by ring
      have ihh := ih (fc + 1) (sc + 1) (by omega) (by omega)
      simp only [extract_loop]
      rw [if_pos h]
      simp only [List.length_cons]
      rw [List.range'_succ, List.map_cons, ← ihh, hfc]
    · have hne : fc ≠ sc * s := by
        intro he
        rw [he] at h
        exact h (Nat.mul_mod_left sc s)
      have ihh := ih (fc + 1) sc (by omega) (by omega)
      simp only [extract_loop]
      rw [if_neg h]
      exact ihh

/-! ### Claim C4 -/

/-- C4: `extract_video_frames` with a requested target rate uses
`stride = max(1, floor(nativeRate / targetRate))` (`1` when no target
rate is given); the saved frames are, in ascending saved-index order, the
pairs `(j, j*stride)` — frame `j` corresponds to source index `j*stride`,
and exactly the source indices that are multiples of the stride and below
the frame count are saved; with native rate 30 and target rate 10 the
stride is 3, and a 90-frame video yields 30 extracted frames. -/
theorem video_stride_extraction (n s : Nat) (hs : 0 < s) (vfps f : ℚ)
    (hf : 0 < f) (hv : 0 ≤ vfps) :
    frame_skip vfps none = 1 ∧
    frame_skip vfps (some f) = max 1 (Int.toNat ⌊vfps / f⌋) ∧
    extract_video_frames n s =
      (List.range (extract_video_frames n s).length).map (fun j => (j, j * s)) ∧
    (∀ j src, (j, src) ∈ extract_video_frames n s ↔ src = j * s ∧ src < n) ∧
    frame_skip 30 (some 10) = 3 ∧
    (extract_video_frames 90 3).length = 30 := by
  have hclosed : extract_video_frames n s =
      (List.range (extract_video_frames n s).length).map (fun j => (j, j * s)) := by
    have h1 : (0 : Nat) ≤ 0 * s := by simp
    have h2 : 0 * s < 0 + s := by simpa using hs
    have hc := extract_loop_closed s hs n 0 0 h1 h2
    rw [List.range_eq_range']
    exact hc
  have hsnd : (extract_video_frames n s).map Prod.snd =
      (List.range n).filter (fun i => i % s == 0) := by
    rw [List.range_eq_range']
    exact extract_loop_snd s n 0 0
  refine ⟨rfl, ?_, hclosed, ?_, ?_, ?_⟩
  · have hq : 0 ≤ vfps / f := div_nonneg hv (le_of_lt hf)
    simp [frame_skip, pyInt, hq]
  · intro j src
    constructor
    · intro hmem
      have hmem' := hmem
      rw [hclosed] at hmem'
      obtain ⟨a, ha, he⟩ := List.mem_map.mp hmem'
      have h1 : a = j := congrArg Prod.fst he
      have h2 : a * s = src := congrArg Prod.snd he
      subst h1
      subst h2
      refine ⟨rfl, ?_⟩
      have hms : a * s ∈ (extract_video_frames n s).map Prod.snd :=
        List.mem_map_of_mem Prod.snd hmem
      rw [hsnd] at hms
      exact List.mem_range.mp (List.mem_filter.mp hms).1
    · rintro ⟨h1, h2⟩
      subst h1
      have hms : j * s ∈ (extract_video_frames n s).map Prod.snd := by
        rw [hsnd]
        refine List.mem_filter.mpr ⟨List.mem_range.mpr h2, ?_⟩
        simp [Nat.mul_mod_left]
      obtain ⟨p, hp, hps⟩ := List.mem_map.mp hms
      have hp' := hp
      rw [hclosed] at hp'
      obtain ⟨a, ha, he⟩ := List.mem_map.mp hp'
      rw [← he] at hps hp
      have hps' : a * s = j * s := hps
      have ha' : a = j := Nat.eq_of_mul_eq_mul_right hs hps'
      subst ha'
      exact hp
  · norm_num [frame_skip, pyInt]
    rfl
  · rfl

/-- Witness for `video_stride_extraction` at the spec's scenario:
stride 3 for rates 30 and 10, and 30 frames out of a 90-frame video. -/
theorem video_stride_extraction_witness :
    frame_skip 30 (some 10) = 3 ∧ (extract_video_frames 90 3).length = 30 :=
  ⟨(video_stride_extraction 90 3 (by decide) 30 10 (by norm_num)
      (by norm_num)).2.2.2.2.1,
   (video_stride_extraction 90 3 (by decide) 30 10 (by norm_num)
      (by norm_num)).2.2.2.2.2⟩

/-! ### VideoHandler.reassemble_video_from_frames (src/core/video_handler.py,
lines 132-248) and safe_remove_directory (src/utils/file_utils.py,
lines 93-123)

`is_processing()` is read once at the top of each compositing iteration,
once after the compositing loop, once at the top of each write iteration
and once for the final return value; `proc t` is the value returned by
the `t`-th such read.  `firstFrameOk` covers the first-frame probe
(`os.listdir(...)[0]` and the `imread`/`.shape` access), whose failure
raises into the outer `except` handler.  The result records whether the
greenscreen directory was created, how many `shutil.rmtree` calls were
made on it and whether it was actually removed. -/

/-- The observable outcome of one `reassemble_video_from_frames` run. -/
structure ReassembleResult where
  retval : Bool
  greenscreenCreated : Bool
  rmtreeCalls : Nat
  dirRemoved : Bool
deriving DecidableEq, Repr

/-- A frame loop that reads the stop flag once per iteration and breaks
on the first `false` read: returns the index of the next unconsumed
read. -/
def loop_reads (proc : Nat → Bool) : List String → Nat → Nat
  | [], t => t
  | _ :: rest, t => if proc t then loop_reads proc rest (t + 1) else t + 1

/-- `reassemble_video_from_frames(frames_dir, output_video_path, ...)`:
no discovered frames raises into the handler (return `False`, no
greenscreen directory); otherwise the greenscreen directory is created,
the compositing loop runs, and a stop observed at the post-compositing
check returns `False` with no cleanup; a first-frame failure likewise
raises with no cleanup; otherwise the write loop runs, `shutil.rmtree`
is called exactly once on the greenscreen directory (its failure is
swallowed), and the final `is_processing()` read becomes the return
value. -/
def reassemble_video_from_frames (proc : Nat → Bool) (frame_files : List String)
    (firstFrameOk : Bool) (greenscreen_files : List String)
    (rmtreeOk : Bool) : ReassembleResult :=
  if frame_files.isEmpty then
    { retval := false, greenscreenCreated := false, rmtreeCalls := 0,
      dirRemoved := false }
  else
    let t1 := loop_reads proc frame_files 0
    if !proc t1 then
      { retval := false, greenscreenCreated := true, rmtreeCalls := 0,
        dirRemoved := false }
    else if !firstFrameOk then
      { retval := false, greenscreenCreated := true, rmtreeCalls := 0,
        dirRemoved := false }
    else
      let t2 := loop_reads proc greenscreen_files (t1 + 1)
      { retval := proc t2, greenscreenCreated := true, rmtreeCalls := 1,
        dirRemoved := rmtreeOk }

/-- The `for attempt in range(max_retries)` loop of
`safe_remove_directory`: `attemptOk t` tells whether the `t`-th
`shutil.rmtree` call succeeds; on the last failed attempt a final
`rmtree(ignore_errors=True)` call is made (`lastResortOk` = it does not
itself raise).  Returns (return value, total number of `rmtree` calls). -/
def safe_remove_attempts (attemptOk : Nat → Bool) (lastResortOk : Bool) :
    Nat → Nat → Bool × Nat
  | 0, tried => (false, tried)
  | remaining + 1, tried =>
    if attemptOk tried then (true, tried + 1)
    else if remaining = 0 then (lastResortOk, tried + 2)
    else safe_remove_attempts attemptOk lastResortOk remaining (tried + 1)

/-- `safe_remove_directory(directory, max_retries=3)`: a missing
directory returns `True` with no calls; otherwise the retry loop runs. -/
def safe_remove_directory (dirExists : Bool) (attemptOk : Nat → Bool)
    (lastResortOk : Bool) (max_retries : Nat) : Bool × Nat :=
  if !dirExists then (true, 0)
  else safe_remove_attempts attemptOk lastResortOk max_retries 0

/-! ### Claim C8 -/

/-- C8 counterexample: two frames are discovered and the stop flag turns
false at the second compositing read, so the post-compositing check
observes the cancellation and the function returns `false` with the
greenscreen directory created, zero `shutil.rmtree` calls made, and the
directory not removed — cleanup is not performed on this cancelled
run. -/
theorem reassemble_cleanup_skipped_on_cancel :
    (reassemble_video_from_frames (fun t => decide (t < 1))
        ["frame_000000.png", "frame_000001.png"] true [] true).greenscreenCreated
        = true ∧
    (reassemble_video_from_frames (fun t => decide (t < 1))
        ["frame_000000.png", "frame_000001.png"] true [] true).rmtreeCalls = 0 ∧
    (reassemble_video_from_frames (fun t => decide (t < 1))
        ["frame_000000.png", "frame_000001.png"] true [] true).dirRemoved = false ∧
    (reassemble_video_from_frames (fun t => decide (t < 1))
        ["frame_000000.png", "frame_000001.png"] true [] true).retval = false := by
  refine ⟨rfl, rfl, rfl, rfl⟩

/-- Helper: the retry loop of `safe_remove_directory` makes at most one
`rmtree` call per remaining attempt plus the final ignore-errors call. -/
lemma safe_remove_attempts_le (attemptOk : Nat → Bool) (lastResortOk : Bool) :
    ∀ (remaining tried : Nat),
      (safe_remove_attempts attemptOk lastResortOk remaining tried).2 ≤
        tried + remaining + 1 := by
  intro remaining
  induction remaining with
  | zero => intro tried; simp [safe_remove_attempts]
  | succ r ih =>
    intro tried
    by_cases h : attemptOk tried = true
    · simp only [safe_remove_attempts, h, if_true]
      omega
    · have h' : attemptOk tried = false := by simpa using h
      by_cases hr : r = 0
      · subst hr
        have : safe_remove_attempts attemptOk lastResortOk (0 + 1) tried =
            (lastResortOk, tried + 2) := by
          simp [safe_remove_attempts, h']
        rw [this]
      · simp only [safe_remove_attempts, h', Bool.false_eq_true, if_false, if_neg hr]
        have := ih (tried + 1)
        omega

/-- C8 (amended): `reassemble_video_from_frames` calls `shutil.rmtree` on
the intermediate greenscreen directory at most once per run — there is no
in-function retry — and exactly once precisely on runs that reach the
video-writing phase (frames were found, processing was still active after
compositing, and the first frame was readable), whether or not writing is
then stopped; on every other run (no frames, cancellation observed after
compositing, first-frame failure) it returns with no removal attempt and
the directory, if created, is left in place.  The bounded-retry deletion
the spec describes is `safe_remove_directory` (used by the caller on the
enclosing temp directory): `max_retries` attempts plus one final
ignore-errors call, so at most `max_retries + 1` `rmtree` calls. -/
theorem reassemble_cleanup_single_attempt (proc : Nat → Bool)
    (frame_files : List String) (firstFrameOk : Bool)
    (greenscreen_files : List String) (rmtreeOk : Bool)
    (attemptOk : Nat → Bool) (lastResortOk : Bool) (max_retries : Nat) :
    ((reassemble_video_from_frames proc frame_files firstFrameOk
        greenscreen_files rmtreeOk).rmtreeCalls ≤ 1) ∧
    (frame_files.isEmpty = false → proc (loop_reads proc frame_files 0) = true →
      firstFrameOk = true →
      (reassemble_video_from_frames proc frame_files firstFrameOk
        greenscreen_files rmtreeOk).rmtreeCalls = 1 ∧
      (reassemble_video_from_frames proc frame_files firstFrameOk
        greenscreen_files rmtreeOk).dirRemoved = rmtreeOk) ∧
    ((frame_files.isEmpty = true ∨ proc (loop_reads proc frame_files 0) = false ∨
      firstFrameOk = false) →
      (reassemble_video_from_frames proc frame_files firstFrameOk
        greenscreen_files rmtreeOk).rmtreeCalls = 0 ∧
      (reassemble_video_from_frames proc frame_files firstFrameOk
        greenscreen_files rmtreeOk).dirRemoved = false) ∧
    (safe_remove_directory true attemptOk lastResortOk max_retries).2 ≤
      max_retries + 1 := by
  refine ⟨?_, ?_, ?_, ?_⟩
  · by_cases he : frame_files.isEmpty = true
    · simp [reassemble_video_from_frames, he]
    · have he' : frame_files.isEmpty = false := by simpa using he
      by_cases hp : proc (loop_reads proc frame_files 0) = true
      · by_cases hf : firstFrameOk = true
        · simp [reassemble_video_from_frames, he', hp, hf]
        · have hf' : firstFrameOk = false := by simpa using hf
          simp [reassemble_video_from_frames, he', hp, hf']
      · have hp' : proc (loop_reads proc frame_files 0) = false := by simpa using hp
        simp [reassemble_video_from_frames, he', hp']
  · intro he hp hf
    constructor <;> simp [reassemble_video_from_frames, he, hp, hf]
  · intro h
    rcases h with he | hp | hf
    · constructor <;> simp [reassemble_video_from_frames, he]
    · rcases frame_files with _ | ⟨a, rest⟩
      · constructor <;> simp [reassemble_video_from_frames]
      · constructor <;> simp [reassemble_video_from_frames, hp]
    · rcases frame_files with _ | ⟨a, rest⟩
      · constructor <;> simp [reassemble_video_from_frames]
      · by_cases hp : proc (loop_reads proc (a :: rest) 0) = true
        · constructor <;> simp [reassemble_video_from_frames, hp, hf]
        · have hp' : proc (loop_reads proc (a :: rest) 0) = false := by simpa using hp
          constructor <;> simp [reassemble_video_from_frames, hp']
  · simp only [safe_remove_directory, Bool.not_true, Bool.false_eq_true, if_false]
    have := safe_remove_attempts_le attemptOk lastResortOk max_retries 0
    omega

/-- Witness for `reassemble_cleanup_single_attempt`: a run that reaches
the writing phase makes exactly one removal call. -/
theorem reassemble_cleanup_single_attempt_witness :
    (reassemble_video_from_frames (fun _ => true) ["frame_000000.png"] true
      ["frame_000000.png"] true).rmtreeCalls = 1 ∧
    (reassemble_video_from_frames (fun _ => true) ["frame_000000.png"] true
      ["frame_000000.png"] true).dirRemoved = true :=
  (reassemble_cleanup_single_attempt (fun _ => true) ["frame_000000.png"] true
    ["frame_000000.png"] true (fun _ => true) true 3).2.1 rfl rfl rfl
